import Mathlib

/-!
Verification of `rdedup`'s repository configuration core (`src/lib/src/config.rs`).

We give a shallow embedding of the data model and the operations of that file:
the algorithm spec enums (`Chunking`, `Compression`, `Hashing`, `Encryption`),
the `Nesting` path deriver, the `Repo` descriptor with its serde
(de)serialization semantics, and the bootstrap write/commit protocol over a
modelled asynchronous I/O primitive.  Rust `u8`/`u32` values are modelled as
`Nat` (range checks are made explicit where they matter); a Rust panic is
modelled as `Option.none`; fallible operations return `Except`.
-/

set_option autoImplicit false

namespace RdedupConfig

/-- `REPO_VERSION_LOWEST` from config.rs. -/
def REPO_VERSION_LOWEST : Nat := 0

/-- `REPO_VERSION_CURRENT` from config.rs. -/
def REPO_VERSION_CURRENT : Nat := 1

/-- `VERSION_FILE` from config.rs. -/
def VERSION_FILE : String := "version"

/-- `CONFIG_YML_FILE` from config.rs. -/
def CONFIG_YML_FILE : String := "config.yml"

/-- `DEFAULT_BUP_CHUNK_BITS` from config.rs. -/
def DEFAULT_BUP_CHUNK_BITS : Nat := 17

/-- `enum Chunking` from config.rs: `Bup { chunk_bits: u32 }` or
`Gear { chunk_bits: u32 }`. -/
inductive Chunking where
  | bup (chunk_bits : Nat)
  | gear (chunk_bits : Nat)
  deriving DecidableEq

/-- `impl Default for Chunking`: `Bup { chunk_bits: DEFAULT_BUP_CHUNK_BITS }`. -/
def chunkingDefault : Chunking := Chunking.bup DEFAULT_BUP_CHUNK_BITS

/-- `Chunking::valid` from config.rs: `30 >= bits && bits >= 10` in both arms. -/
def Chunking.valid : Chunking → Bool
  | Chunking.bup bits => decide (30 ≥ bits) && decide (bits ≥ 10)
  | Chunking.gear bits => decide (30 ≥ bits) && decide (bits ≥ 10)

/-- The `chunk_bits` payload of either `Chunking` variant. -/
def Chunking.bits : Chunking → Nat
  | Chunking.bup b => b
  | Chunking.gear b => b

/-- `enum Compression` from config.rs. -/
inductive Compression where
  | deflate
  | xz2
  | bzip2
  | zstd
  | none
  deriving DecidableEq

/-- `impl Default for Compression`: `Deflate`. -/
def compressionDefault : Compression := Compression.deflate

/-- `enum Hashing` from config.rs. -/
inductive Hashing where
  | sha256
  | blake2b
  deriving DecidableEq

/-- `impl Default for Hashing`: `Sha256`. -/
def hashingDefault : Hashing := Hashing.sha256

/-- Modelled from the spec: `encryption::Curve25519` lives in the external
`encryption` module (not under src/).  Per the spec it is a sealed,
passphrase-protected private key plus its public counterpart; the
passphrase-wrapping is represented abstractly by recording the protecting
passphrase value. -/
structure Curve25519 where
  wrap_pass : String
  sec_key : List Nat
  pub_key : List Nat
  deriving DecidableEq

/-- `enum Encryption` from config.rs: `None` or
`Curve25519(encryption::Curve25519)`. -/
inductive Encryption where
  | none
  | curve (c : Curve25519)
  deriving DecidableEq

/-- Encrypter handles (`ArcEncrypter`): `NopEncrypter` for `Encryption::None`,
or the curve25519 engine. -/
inductive EncrypterH where
  | nopEncrypter
  | curveEncrypter (pub_key : List Nat)
  deriving DecidableEq

/-- Decrypter handles (`ArcDecrypter`): `NopDecrypter` for `Encryption::None`,
or the curve25519 engine. -/
inductive DecrypterH where
  | nopDecrypter
  | curveDecrypter (sec_key : List Nat)
  deriving DecidableEq

/-- Authentication-failure message used by the modelled curve25519 engine. -/
def errAuth : String := "authentication failed"

/-- Modelled from the spec: `Curve25519::change_passphrase` (external
`encryption` module) unwraps the private key with the old passphrase — failing
with an authentication error if it does not match — and re-wraps the same key
bytes under the new passphrase. -/
def curve25519ChangePassphrase (c : Curve25519) (old_p new_p : String) :
    Except String Curve25519 :=
  if c.wrap_pass = old_p then
    Except.ok ⟨new_p, c.sec_key, c.pub_key⟩
  else
    Except.error errAuth

/-- Modelled from the spec: `Curve25519::encrypter` (external `encryption`
module) derives an encrypter handle; sealing uses the public key. -/
def curve25519Encrypter (c : Curve25519) (_pass : String) :
    Except String EncrypterH :=
  Except.ok (EncrypterH.curveEncrypter c.pub_key)

/-- Modelled from the spec: `Curve25519::decrypter` (external `encryption`
module) unwraps the private key with the passphrase, failing with an
authentication error on mismatch. -/
def curve25519Decrypter (c : Curve25519) (pass : String) :
    Except String DecrypterH :=
  if c.wrap_pass = pass then
    Except.ok (DecrypterH.curveDecrypter c.sec_key)
  else
    Except.error errAuth

/-- `EncryptionEngine::change_passphrase` for `Encryption` (config.rs):
`None => Ok(())` (the value is left unchanged), `Curve25519(c) =>
c.change_passphrase(old_p, new_p)`.  The Rust method mutates in place; we
return the post-state. -/
def Encryption.change_passphrase : Encryption → String → String →
    Except String Encryption
  | Encryption.none, _, _ => Except.ok Encryption.none
  | Encryption.curve c, old_p, new_p =>
      (curve25519ChangePassphrase c old_p new_p).map Encryption.curve

/-- `EncryptionEngine::encrypter` for `Encryption` (config.rs):
`None => Ok(Arc::new(NopEncrypter))`, `Curve25519(c) => c.encrypter(pass)`. -/
def Encryption.encrypter : Encryption → String → Except String EncrypterH
  | Encryption.none, _ => Except.ok EncrypterH.nopEncrypter
  | Encryption.curve c, pass => curve25519Encrypter c pass

/-- `EncryptionEngine::decrypter` for `Encryption` (config.rs):
`None => Ok(Arc::new(NopDecrypter))`, `Curve25519(c) => c.decrypter(pass)`. -/
def Encryption.decrypter : Encryption → String → Except String DecrypterH
  | Encryption.none, _ => Except.ok DecrypterH.nopDecrypter
  | Encryption.curve c, pass => curve25519Decrypter c pass

/-- `struct Nesting(pub u8)` from config.rs. -/
structure Nesting where
  val : Nat
  deriving DecidableEq

/-- `impl Default for Nesting`: `Nesting(2)`. -/
def nestingDefault : Nesting := ⟨2⟩

/-- The lowercase hex digit for a nibble, as produced by the `hex` crate:
`0`–`9` then `a`–`f`. -/
def hexDigitChar (n : Nat) : Char :=
  if n < 10 then Char.ofNat (48 + n) else Char.ofNat (87 + n)

/-- One byte rendered as two lowercase hex characters, high nibble first. -/
def byteToHex (b : Nat) : List Char :=
  [hexDigitChar (b / 16), hexDigitChar (b % 16)]

/-- Modelled from the spec: `hex::ToHex::to_hex` (external `hex` crate) —
lowercase hex encoding, two characters per byte, in byte order. -/
def toHex : List Nat → List Char
  | [] => []
  | b :: rest => byteToHex b ++ toHex rest

/-- A filesystem path, modelled as its list of components (each a list of
characters); `PathBuf::join` is list append. -/
abbrev RPath := List (List Char)

/-- One nesting level's slice `&hex_digest[start..end]` with `start = 2*i`,
`end = start + 2` (config.rs): `none` models the Rust panic when the slice
range exceeds the string's length. -/
def sliceSeg (hex : List Char) (i : Nat) : Option (List Char) :=
  if 2 * i + 2 ≤ hex.length then some ((hex.drop (2 * i)).take 2) else none

/-- Sequential `Option`-valued map, mirroring the Rust `for` loop that joins
one segment per level and panics at the first out-of-range slice. -/
def optMapM {α β : Type} (f : α → Option β) : List α → Option (List β)
  | [] => some []
  | a :: l =>
    match f a with
    | Option.none => Option.none
    | Option.some b =>
      match optMapM f l with
      | Option.none => Option.none
      | Option.some bs => Option.some (b :: bs)

/-- `Nesting::get_path` from config.rs: hex-encode the digest; for `i` in
`0..levels` join the two-character slice at `[2*i, 2*i+2)`; finally join the
full hex digest.  The result is `none` exactly when the Rust code panics on an
out-of-range string slice (the function's Rust return type `PathBuf` has no
error value). -/
def Nesting.get_path (n : Nesting) (base : RPath) (digest : List Nat) :
    Option RPath :=
  match optMapM (sliceSeg (toHex digest)) (List.range n.val) with
  | Option.none => Option.none
  | Option.some segs => Option.some (base ++ segs ++ [toHex digest])

/-- `struct Repo` from config.rs: the repository descriptor. -/
structure Repo where
  version : Nat
  chunking : Chunking
  encryption : Encryption
  compression : Compression
  nesting : Nesting
  hashing : Hashing
  deriving DecidableEq

/-! ### Serde (de)serialization semantics for `Repo`

`Repo` derives `Serialize`/`Deserialize` with `#[serde(tag = "type")]` on each
spec enum and `#[serde(default)]` on `chunking`, `compression`, `nesting` and
`hashing` (`version` and `encryption` carry no default).  We model the YAML
tree structurally: field names and variant tags are the exact identifiers the
serde attributes fix, represented as symbols. -/

/-- The field names occurring in the serialized forms (serde field
identifiers and the `type` tag key). -/
inductive YKey where
  | ktype
  | kchunkBits
  | kversion
  | kchunking
  | kencryption
  | kcompression
  | knesting
  | khashing
  | kwrapPass
  | ksecKey
  | kpubKey
  deriving DecidableEq

/-- The `#[serde(rename = ...)]` variant tags of the four spec enums. -/
inductive YTag where
  | tbup
  | tgear
  | tdeflate
  | txz2
  | tbzip2
  | tzstd
  | tnone
  | tsha256
  | tblake2b
  | tcurve25519
  deriving DecidableEq

/-- A YAML value tree as serde produces and consumes it for these types. -/
inductive YVal where
  | tag (t : YTag)
  | nat (n : Nat)
  | str (s : String)
  | bytes (b : List Nat)
  | map (m : List (YKey × YVal))

/-- First value stored under a key in a YAML mapping. -/
def lookupKey (k : YKey) : List (YKey × YVal) → Option YVal
  | [] => Option.none
  | (k', v) :: rest => if k' = k then Option.some v else lookupKey k rest

/-- Serialization of `Chunking` (`#[serde(tag = "type")]`, variants renamed
`bup`/`gear`, payload field `chunk_bits`). -/
def Chunking.toVal : Chunking → YVal
  | Chunking.bup bits =>
      YVal.map [(YKey.ktype, YVal.tag YTag.tbup), (YKey.kchunkBits, YVal.nat bits)]
  | Chunking.gear bits =>
      YVal.map [(YKey.ktype, YVal.tag YTag.tgear), (YKey.kchunkBits, YVal.nat bits)]

/-- Serialization of `Compression` (tagged, no payload). -/
def Compression.toVal : Compression → YVal
  | Compression.deflate => YVal.map [(YKey.ktype, YVal.tag YTag.tdeflate)]
  | Compression.xz2 => YVal.map [(YKey.ktype, YVal.tag YTag.txz2)]
  | Compression.bzip2 => YVal.map [(YKey.ktype, YVal.tag YTag.tbzip2)]
  | Compression.zstd => YVal.map [(YKey.ktype, YVal.tag YTag.tzstd)]
  | Compression.none => YVal.map [(YKey.ktype, YVal.tag YTag.tnone)]

/-- Serialization of `Hashing` (tagged, no payload). -/
def Hashing.toVal : Hashing → YVal
  | Hashing.sha256 => YVal.map [(YKey.ktype, YVal.tag YTag.tsha256)]
  | Hashing.blake2b => YVal.map [(YKey.ktype, YVal.tag YTag.tblake2b)]

/-- Serialization of `Encryption` (tagged `none` /
`curve25519_blake2b_salsa20_poly1305`; the curve payload is the modelled key
material). -/
def Encryption.toVal : Encryption → YVal
  | Encryption.none => YVal.map [(YKey.ktype, YVal.tag YTag.tnone)]
  | Encryption.curve c =>
      YVal.map [(YKey.ktype, YVal.tag YTag.tcurve25519),
                (YKey.kwrapPass, YVal.str c.wrap_pass),
                (YKey.ksecKey, YVal.bytes c.sec_key),
                (YKey.kpubKey, YVal.bytes c.pub_key)]

/-- Serialization of `Nesting` (a serde newtype over `u8`: a plain integer). -/
def Nesting.toVal (n : Nesting) : YVal := YVal.nat n.val

/-- Serialization of `Repo`: a mapping with all six fields present. -/
def Repo.toVal (r : Repo) : YVal :=
  YVal.map [(YKey.kversion, YVal.nat r.version),
            (YKey.kchunking, r.chunking.toVal),
            (YKey.kencryption, r.encryption.toVal),
            (YKey.kcompression, r.compression.toVal),
            (YKey.knesting, r.nesting.toVal),
            (YKey.khashing, r.hashing.toVal)]

/-- Deserialization error message. -/
def errMalformed : String := "malformed config"

/-- Missing-field error for `version` (no serde default on that field). -/
def errMissingVersion : String := "missing field version"

/-- Missing-field error for `encryption` (no serde default on that field). -/
def errMissingEncryption : String := "missing field encryption"

/-- Deserialization of `Chunking`: dispatch on the `type` tag, then read
`chunk_bits`. -/
def parseChunking : YVal → Except String Chunking
  | YVal.map m =>
    match lookupKey YKey.ktype m with
    | Option.some (YVal.tag YTag.tbup) =>
      match lookupKey YKey.kchunkBits m with
      | Option.some (YVal.nat b) => Except.ok (Chunking.bup b)
      | _ => Except.error errMalformed
    | Option.some (YVal.tag YTag.tgear) =>
      match lookupKey YKey.kchunkBits m with
      | Option.some (YVal.nat b) => Except.ok (Chunking.gear b)
      | _ => Except.error errMalformed
    | _ => Except.error errMalformed
  | _ => Except.error errMalformed

/-- Deserialization of `Compression`. -/
def parseCompression : YVal → Except String Compression
  | YVal.map m =>
    match lookupKey YKey.ktype m with
    | Option.some (YVal.tag YTag.tdeflate) => Except.ok Compression.deflate
    | Option.some (YVal.tag YTag.txz2) => Except.ok Compression.xz2
    | Option.some (YVal.tag YTag.tbzip2) => Except.ok Compression.bzip2
    | Option.some (YVal.tag YTag.tzstd) => Except.ok Compression.zstd
    | Option.some (YVal.tag YTag.tnone) => Except.ok Compression.none
    | _ => Except.error errMalformed
  | _ => Except.error errMalformed

/-- Deserialization of `Hashing`. -/
def parseHashing : YVal → Except String Hashing
  | YVal.map m =>
    match lookupKey YKey.ktype m with
    | Option.some (YVal.tag YTag.tsha256) => Except.ok Hashing.sha256
    | Option.some (YVal.tag YTag.tblake2b) => Except.ok Hashing.blake2b
    | _ => Except.error errMalformed
  | _ => Except.error errMalformed

/-- Deserialization of `Encryption`. -/
def parseEncryption : YVal → Except String Encryption
  | YVal.map m =>
    match lookupKey YKey.ktype m with
    | Option.some (YVal.tag YTag.tnone) => Except.ok Encryption.none
    | Option.some (YVal.tag YTag.tcurve25519) =>
      match lookupKey YKey.kwrapPass m, lookupKey YKey.ksecKey m,
          lookupKey YKey.kpubKey m with
      | Option.some (YVal.str w), Option.some (YVal.bytes sk),
          Option.some (YVal.bytes pk) =>
        Except.ok (Encryption.curve ⟨w, sk, pk⟩)
      | _, _, _ => Except.error errMalformed
    | _ => Except.error errMalformed
  | _ => Except.error errMalformed

/-- Deserialization of `Nesting` (newtype over `u8`). -/
def parseNesting : YVal → Except String Nesting
  | YVal.nat n => Except.ok ⟨n⟩
  | _ => Except.error errMalformed

/-- Deserialization of a bare integer (`u32 version`). -/
def parseNatVal : YVal → Except String Nat
  | YVal.nat n => Except.ok n
  | _ => Except.error errMalformed

/-- The raw field presence/absence view of a serialized `Repo` mapping, the
input to serde's derived struct deserializer. -/
structure RepoFields where
  version : Option Nat
  chunking : Option Chunking
  encryption : Option Encryption
  compression : Option Compression
  nesting : Option Nesting
  hashing : Option Hashing
  deriving DecidableEq

/-- Semantics of the derived `Deserialize` for `struct Repo`: fields without
`#[serde(default)]` (`version`, `encryption`) are required — absence is an
error; fields with `#[serde(default)]` fall back to the `Default` impls. -/
def Repo.fromFields (f : RepoFields) : Except String Repo :=
  match f.version with
  | Option.none => Except.error errMissingVersion
  | Option.some v =>
    match f.encryption with
    | Option.none => Except.error errMissingEncryption
    | Option.some e =>
      Except.ok ⟨v, f.chunking.getD chunkingDefault, e,
        f.compression.getD compressionDefault,
        f.nesting.getD nestingDefault,
        f.hashing.getD hashingDefault⟩

/-- Parse one optional field: absent stays absent; present values must parse. -/
def parseField {α : Type} (p : YVal → Except String α) :
    Option YVal → Except String (Option α)
  | Option.none => Except.ok Option.none
  | Option.some v => (p v).map Option.some

/-- Deserialization of `Repo` from a YAML tree: gather the six fields (each
parsed if present), then apply the required/default semantics. -/
def parseRepo : YVal → Except String Repo
  | YVal.map m => do
    let v ← parseField parseNatVal (lookupKey YKey.kversion m)
    let ch ← parseField parseChunking (lookupKey YKey.kchunking m)
    let en ← parseField parseEncryption (lookupKey YKey.kencryption m)
    let co ← parseField parseCompression (lookupKey YKey.kcompression m)
    let ne ← parseField parseNesting (lookupKey YKey.knesting m)
    let ha ← parseField parseHashing (lookupKey YKey.khashing m)
    Repo.fromFields ⟨v, ch, en, co, ne, ha⟩
  | _ => Except.error errMalformed

/-! ### The asynchronous I/O primitive and the write/commit protocol

`aio.write(path, data).wait()` is a single suspend point that either
acknowledges the write as durable or fails.  We model the durable store as the
ordered list of acknowledged writes, and failure injection as a predicate on
the path written. -/

/-- Payload of a durable write: the serialized YAML tree for the
configuration file, or plain text for the version (marker) file. -/
inductive FileData where
  | yamlData (v : YVal)
  | textData (s : String)

/-- The durable store: acknowledged writes in completion order. -/
structure AioState where
  writes : List (String × FileData)

/-- Error message returned when the I/O collaborator fails a write. -/
def errWriteFailed : String := "write failed"

/-- `aio.write(path, data).wait()`: if the injected fault predicate holds for
the path the write fails and the store is unchanged; otherwise the write is
appended to the store and acknowledged. -/
def aioWrite (fail : String → Bool) (path : String) (data : FileData)
    (s : AioState) : Except String Unit × AioState :=
  if fail path then (Except.error errWriteFailed, s)
  else (Except.ok (), ⟨s.writes ++ [(path, data)]⟩)

/-- `write_version_file` from config.rs: render `version` in decimal
(`write!("{}", version)`) and durably write it to `VERSION_FILE`. -/
def write_version_file (fail : String → Bool) (version : Nat) (s : AioState) :
    Except String Unit × AioState :=
  aioWrite fail VERSION_FILE (FileData.textData (Nat.repr version)) s

/-- `Repo::write` from config.rs: serialize `self` to YAML, durably write it
to `CONFIG_YML_FILE` (propagating failure with `?`), and only then call
`write_version_file(aio, REPO_VERSION_CURRENT)` — note: the constant, not
`self.version`. -/
def Repo.write (fail : String → Bool) (r : Repo) (s : AioState) :
    Except String Unit × AioState :=
  match aioWrite fail CONFIG_YML_FILE (FileData.yamlData r.toVal) s with
  | (Except.error e, s1) => (Except.error e, s1)
  | (Except.ok _, s1) =>
    match write_version_file fail REPO_VERSION_CURRENT s1 with
    | (Except.error e, s2) => (Except.error e, s2)
    | (Except.ok _, s2) => (Except.ok (), s2)

/-! ### Settings and descriptor construction -/

/-- Modelled from the spec: `settings::Encryption` (the `settings` module is
not under src/) — the caller's encryption choice, `Curve25519` or `None`. -/
inductive SettingsEncryption where
  | curve25519
  | none
  deriving DecidableEq

/-- Modelled from the spec: `settings::Repo` (the `settings` module is not
under src/) — the caller-chosen algorithm settings.  `Repo::new_from_settings`
reads `settings.chunking.0` and converts the other choices with `to_config()`;
we record the converted config-spec values directly. -/
structure SettingsRepo where
  chunking : Chunking
  encryption : SettingsEncryption
  compression : Compression
  nesting : Nesting
  hashing : Hashing
  deriving DecidableEq

/-- Modelled from the spec: `encryption::Curve25519::new(pass)` (external
`encryption` module) generates a fresh key pair and wraps the private key
under the passphrase. -/
def curve25519New (pass : String) : Except String Curve25519 :=
  Except.ok ⟨pass, List.replicate 32 0, List.replicate 32 1⟩

/-- `Repo::new_from_settings` from config.rs: build the `Encryption` value
from the settings choice (creating fresh curve25519 key material, `?` on
failure), then return the descriptor with `version = REPO_VERSION_CURRENT` and
every other field copied from the settings — no validity check is performed. -/
def Repo.new_from_settings (pass : String) (s : SettingsRepo) :
    Except String Repo :=
  match
    (match s.encryption with
     | SettingsEncryption.curve25519 => (curve25519New pass).map Encryption.curve
     | SettingsEncryption.none => Except.ok Encryption.none) with
  | Except.error e => Except.error e
  | Except.ok enc =>
    Except.ok ⟨REPO_VERSION_CURRENT, s.chunking, enc, s.compression,
      s.nesting, s.hashing⟩

/-! ### Helper lemmas -/

/-- A sequential option-map succeeds with the pointwise images when every
element succeeds. -/
theorem optMapM_eq_some_of_forall {α β : Type} (f : α → Option β) (g : α → β) :
    ∀ l : List α, (∀ a ∈ l, f a = some (g a)) →
      optMapM f l = some (l.map g) := by
  intro l
  induction l with
  | nil => intro _; rfl
  | cons a rest ih =>
    intro h
    have ha : f a = some (g a) := h a (List.mem_cons_self a rest)
    have hrest : optMapM f rest = some (rest.map g) :=
      ih (fun x hx => h x (List.mem_cons_of_mem a hx))
    simp [optMapM, ha, hrest]

/-- A sequential option-map fails as soon as any element fails. -/
theorem optMapM_eq_none_of_mem {α β : Type} {f : α → Option β} {l : List α}
    {a : α} (ha : a ∈ l) (hf : f a = Option.none) :
    optMapM f l = Option.none := by
  induction l with
  | nil => cases ha
  | cons b rest ih =>
    rcases List.mem_cons.mp ha with hb | hb
    · subst hb
      simp [optMapM, hf]
    · cases hfb : f b with
      | none => simp [optMapM, hfb]
      | some v => simp [optMapM, hfb, ih hb]

/-- The last component of a path that ends in an explicit leaf. -/
theorem getLast_append_singleton {α : Type} (l : List α) (a : α) :
    (l ++ [a]).getLast? = some a := by
  induction l with
  | nil => rfl
  | cons b rest ih =>
    cases rest with
    | nil => rfl
    | cons c rest2 => simp [List.getLast?] at ih ⊢

/-- The sixteen lowercase hex characters `0`–`9`, `a`–`f`. -/
def lowercaseHexChars : List Char :=
  ((List.range 10).map (fun n => Char.ofNat (48 + n))) ++
    ((List.range 6).map (fun n => Char.ofNat (97 + n)))

/-- Each nibble's hex digit is a lowercase hex character. -/
theorem hexDigitChar_mem_lower : ∀ n : Fin 16,
    hexDigitChar n.val ∈ lowercaseHexChars := by decide

/-- The nibble-to-hex-digit map is injective on nibbles. -/
theorem hexDigitChar_fin_inj : ∀ m n : Fin 16,
    hexDigitChar m.val = hexDigitChar n.val → m = n := by decide

/-- `byteToHex` is injective on bytes. -/
theorem byteToHex_inj {b1 b2 : Nat} (h1 : b1 < 256) (h2 : b2 < 256)
    (he : byteToHex b1 = byteToHex b2) : b1 = b2 := by
  have hd1 : b1 / 16 < 16 := by omega
  have hd2 : b2 / 16 < 16 := by omega
  have hm1 : b1 % 16 < 16 := by omega
  have hm2 : b2 % 16 < 16 := by omega
  have hhi : hexDigitChar (b1 / 16) = hexDigitChar (b2 / 16) := by
    simpa [byteToHex] using congrArg (fun l => l.headI) he
  have hlo : hexDigitChar (b1 % 16) = hexDigitChar (b2 % 16) := by
    have := congrArg (fun l => l.tail.headI) he
    simpa [byteToHex] using this
  have e1 : (⟨b1 / 16, hd1⟩ : Fin 16) = ⟨b2 / 16, hd2⟩ :=
    hexDigitChar_fin_inj _ _ hhi
  have e2 : (⟨b1 % 16, hm1⟩ : Fin 16) = ⟨b2 % 16, hm2⟩ :=
    hexDigitChar_fin_inj _ _ hlo
  have d1 : b1 / 16 = b2 / 16 := congrArg Fin.val e1
  have d2 : b1 % 16 = b2 % 16 := congrArg Fin.val e2
  omega

/-- Length of the hex encoding: two characters per byte. -/
theorem toHex_length (d : List Nat) : (toHex d).length = 2 * d.length := by
  induction d with
  | nil => rfl
  | cons b rest ih => simp [toHex, byteToHex, ih]; omega

/-- Hex encoding is injective on byte strings. -/
theorem toHex_inj : ∀ d1 d2 : List Nat, (∀ b ∈ d1, b < 256) →
    (∀ b ∈ d2, b < 256) → toHex d1 = toHex d2 → d1 = d2 := by
  intro d1
  induction d1 with
  | nil =>
    intro d2 _ _ he
    cases d2 with
    | nil => rfl
    | cons b rest => simp [toHex, byteToHex] at he
  | cons b1 rest1 ih =>
    intro d2 h1 h2 he
    cases d2 with
    | nil => simp [toHex, byteToHex] at he
    | cons b2 rest2 =>
      simp only [toHex, byteToHex, List.cons_append, List.nil_append,
        List.cons.injEq] at he
      obtain ⟨ehi, elo, erest⟩ := he
      have hb1 : b1 < 256 := h1 b1 (List.mem_cons_self b1 rest1)
      have hb2 : b2 < 256 := h2 b2 (List.mem_cons_self b2 rest2)
      have hb : b1 = b2 := by
        apply byteToHex_inj hb1 hb2
        simp [byteToHex, ehi, elo]
      have hr : rest1 = rest2 :=
        ih rest2 (fun x hx => h1 x (List.mem_cons_of_mem b1 hx))
          (fun x hx => h2 x (List.mem_cons_of_mem b2 hx)) erest
      rw [hb, hr]

/-- Every character of a hex encoding of genuine bytes is a lowercase hex
character. -/
theorem toHex_chars_lower : ∀ d : List Nat, (∀ b ∈ d, b < 256) →
    ∀ c ∈ toHex d, c ∈ lowercaseHexChars := by
  intro d
  induction d with
  | nil => intro _ c hc; cases hc
  | cons b rest ih =>
    intro hb c hc
    have hblt : b < 256 := hb b (List.mem_cons_self b rest)
    rcases List.mem_append.mp hc with hhead | htail
    · have hd : b / 16 < 16 := by omega
      have hm : b % 16 < 16 := by omega
      rcases List.mem_cons.mp hhead with h | h
      · subst h; exact hexDigitChar_mem_lower ⟨b / 16, hd⟩
      · rcases List.mem_cons.mp h with h2 | h2
        · subst h2; exact hexDigitChar_mem_lower ⟨b % 16, hm⟩
        · cases h2
    · exact ih (fun x hx => hb x (List.mem_cons_of_mem b hx)) c htail

/-! ### Claim theorems -/

/-- C5: `Chunking::valid` returns true iff `chunk_bits` lies in `[10, 30]`,
for both the `Bup` and `Gear` families; in particular `Bup { chunk_bits: 9 }`
is invalid and `chunk_bits: 17` is valid. -/
theorem chunking_valid_iff (c : Chunking) :
    (c.valid = true ↔ (10 ≤ c.bits ∧ c.bits ≤ 30)) ∧
    (Chunking.bup 9).valid = false ∧ (Chunking.bup 17).valid = true := by
  refine ⟨?_, by decide, by decide⟩
  cases c with
  | bup bits =>
    simp [Chunking.valid, Chunking.bits, Bool.and_eq_true, decide_eq_true_iff]
    omega
  | gear bits =>
    simp [Chunking.valid, Chunking.bits, Bool.and_eq_true, decide_eq_true_iff]
    omega

/-- C5 witness: the characterization evaluated at `Bup { chunk_bits: 17 }`. -/
theorem chunking_valid_iff_witness :
    ((Chunking.bup 17).valid = true ↔
      (10 ≤ (Chunking.bup 17).bits ∧ (Chunking.bup 17).bits ≤ 30)) ∧
    (Chunking.bup 9).valid = false ∧ (Chunking.bup 17).valid = true :=
  chunking_valid_iff (Chunking.bup 17)

/-- C7: for the `Encryption::None` variant, `change_passphrase` always
succeeds and leaves the spec unchanged, and `encrypter`/`decrypter` always
succeed with the no-op handles — none of these operations can fail. -/
theorem encryption_none_total (old_p new_p pass : String) :
    Encryption.change_passphrase Encryption.none old_p new_p =
      Except.ok Encryption.none ∧
    Encryption.encrypter Encryption.none pass =
      Except.ok EncrypterH.nopEncrypter ∧
    Encryption.decrypter Encryption.none pass =
      Except.ok DecrypterH.nopDecrypter :=
  ⟨rfl, rfl, rfl⟩

/-- C2: for every base path, digest and nesting depth with
`depth * 2 ≤ hex length`, `Nesting::get_path` joins to the base, for each
`i < depth`, the two-character slice of the lowercase hex encoding at
character offsets `[2*i, 2*i+2)`, and finally the full lowercase hex digest
as the leaf; for `depth = 0` the result is the base joined with the hex
digest only. -/
theorem nesting_get_path_spec (base : RPath) (digest : List Nat) (n : Nesting)
    (hb : ∀ b ∈ digest, b < 256)
    (h : n.val * 2 ≤ (toHex digest).length) :
    Nesting.get_path n base digest =
      some (base ++ (List.range n.val).map
          (fun i => ((toHex digest).drop (2 * i)).take 2) ++ [toHex digest]) ∧
    (∀ c ∈ toHex digest, c ∈ lowercaseHexChars) ∧
    (n.val = 0 → Nesting.get_path n base digest =
      some (base ++ [toHex digest])) := by
  have hmap : optMapM (sliceSeg (toHex digest)) (List.range n.val) =
      some ((List.range n.val).map
        (fun i => ((toHex digest).drop (2 * i)).take 2)) := by
    apply optMapM_eq_some_of_forall
    intro i hi
    have hlt : i < n.val := List.mem_range.mp hi
    unfold sliceSeg
    rw [if_pos]
    omega
  refine ⟨?_, toHex_chars_lower digest hb, ?_⟩
  · unfold Nesting.get_path
    rw [hmap]
  · intro h0
    unfold Nesting.get_path
    rw [h0] at hmap ⊢
    rw [hmap]
    simp

/-- C2 witness: digest `3faa` (bytes 63, 170) at depth 2 shards into segments
`3f`, `aa` with leaf `3faa`. -/
theorem nesting_get_path_spec_witness :
    (∀ b ∈ [63, 170], b < 256) ∧
    ((Nesting.mk 2).val * 2 ≤ (toHex [63, 170]).length) ∧
    (Nesting.get_path ⟨2⟩ [] [63, 170] =
      some ([] ++ (List.range (Nesting.mk 2).val).map
          (fun i => ((toHex [63, 170]).drop (2 * i)).take 2) ++
        [toHex [63, 170]]) ∧
    (∀ c ∈ toHex [63, 170], c ∈ lowercaseHexChars) ∧
    ((Nesting.mk 2).val = 0 → Nesting.get_path ⟨2⟩ [] [63, 170] =
      some ([] ++ [toHex [63, 170]]))) :=
  ⟨by decide, by decide,
    nesting_get_path_spec [] [63, 170] ⟨2⟩ (by decide) (by decide)⟩

/-- C3 counterexample: for digest `[63]` (hex `3f`, two characters) at depth
2, the required slice `[2, 4)` is out of range and `Nesting::get_path` hits
the unguarded string slice — the Rust code panics (modelled `none`); no error
value is returned (the return type `PathBuf` has none), refuting the claim
that the out-of-range case is guarded and reported as an error. -/
theorem get_path_unguarded_slice_cex :
    Nesting.get_path ⟨2⟩ [] [63] = Option.none ∧
    (toHex [63]).length < 2 * 2 := by decide

/-- C3 amended: whenever `depth * 2` exceeds the hex length of the digest,
`Nesting::get_path` panics on the out-of-range string slice (modelled as
`none`); there is no call-time guard and no error return. -/
theorem get_path_out_of_range_none (base : RPath) (digest : List Nat)
    (n : Nesting) (h : (toHex digest).length < n.val * 2) :
    Nesting.get_path n base digest = Option.none := by
  have hmem : n.val - 1 ∈ List.range n.val := List.mem_range.mpr (by omega)
  have hfail : sliceSeg (toHex digest) (n.val - 1) = Option.none := by
    unfold sliceSeg
    rw [if_neg]
    omega
  unfold Nesting.get_path
  rw [optMapM_eq_none_of_mem hmem hfail]

/-- C3 witness: one byte of digest at depth 3 panics. -/
theorem get_path_out_of_range_none_witness :
    ((toHex [170]).length < (Nesting.mk 3).val * 2) ∧
    Nesting.get_path ⟨3⟩ [] [170] = Option.none :=
  ⟨by decide, get_path_out_of_range_none [] [170] ⟨3⟩ (by decide)⟩

/-- C10: for a fixed base and depth, `Nesting::get_path` is injective in the
digest whenever derivation succeeds — the leaf component is the full hex
encoding, and hex encoding is injective on byte strings, so distinct digests
derive distinct paths. -/
theorem get_path_digest_injective (base : RPath) (n : Nesting)
    (d1 d2 : List Nat) (h1 : ∀ b ∈ d1, b < 256) (h2 : ∀ b ∈ d2, b < 256)
    (hne : d1 ≠ d2) (p1 p2 : RPath)
    (e1 : Nesting.get_path n base d1 = some p1)
    (e2 : Nesting.get_path n base d2 = some p2) :
    p1 ≠ p2 := by
  intro hp
  unfold Nesting.get_path at e1 e2
  cases m1 : optMapM (sliceSeg (toHex d1)) (List.range n.val) with
  | none => rw [m1] at e1; exact Option.noConfusion e1
  | some segs1 =>
    cases m2 : optMapM (sliceSeg (toHex d2)) (List.range n.val) with
    | none => rw [m2] at e2; exact Option.noConfusion e2
    | some segs2 =>
      rw [m1] at e1
      rw [m2] at e2
      have hp1 : base ++ segs1 ++ [toHex d1] = p1 := Option.some.inj e1
      have hp2 : base ++ segs2 ++ [toHex d2] = p2 := Option.some.inj e2
      have h3 : base ++ segs1 ++ [toHex d1] = base ++ segs2 ++ [toHex d2] := by
        rw [hp1, hp2, hp]
      have h4 := congrArg List.getLast? h3
      rw [getLast_append_singleton, getLast_append_singleton] at h4
      exact hne (toHex_inj d1 d2 h1 h2 (Option.some.inj h4))

/-- C10 witness: digests `[0]` and `[1]` at depth 0 derive distinct paths. -/
theorem get_path_digest_injective_witness :
    ([toHex [0]] : RPath) ≠ [toHex [1]] :=
  get_path_digest_injective [] ⟨0⟩ [0] [1] (by decide) (by decide) (by decide)
    [toHex [0]] [toHex [1]] (by decide) (by decide)

/-- The last component of a trace that ends in two explicit writes. -/
theorem getLast_append_pair {α : Type} (l : List α) (a b : α) :
    (l ++ [a, b]).getLast? = some b := by
  have h : l ++ [a, b] = (l ++ [a]) ++ [b] := by simp
  rw [h, getLast_append_singleton]

/-- Complete case analysis of `Repo::write` over the injected write faults:
config-write failure returns the error with the store untouched;
version-write failure leaves only the config write durable; otherwise both
writes land in order. -/
theorem repo_write_eq (fail : String → Bool) (r : Repo) (s : AioState) :
    Repo.write fail r s =
      if fail CONFIG_YML_FILE then (Except.error errWriteFailed, s)
      else if fail VERSION_FILE then
        (Except.error errWriteFailed,
          ⟨s.writes ++ [(CONFIG_YML_FILE, FileData.yamlData r.toVal)]⟩)
      else
        (Except.ok (),
          ⟨s.writes ++ [(CONFIG_YML_FILE, FileData.yamlData r.toVal),
            (VERSION_FILE,
              FileData.textData (Nat.repr REPO_VERSION_CURRENT))]⟩) := by
  cases hc : fail CONFIG_YML_FILE with
  | true => simp [Repo.write, aioWrite, hc]
  | false =>
    cases hv : fail VERSION_FILE with
    | true => simp [Repo.write, write_version_file, aioWrite, hc, hv]
    | false => simp [Repo.write, write_version_file, aioWrite, hc, hv]

/-- A sample descriptor (the default algorithm choices at the current
format version). -/
def sampleRepo : Repo :=
  ⟨1, Chunking.bup 17, Encryption.none, Compression.deflate, ⟨2⟩,
    Hashing.sha256⟩

/-- C1: `Repo::write` issues the version-marker write only after the
configuration write completed successfully — if the configuration write
fails, the error is returned and nothing (in particular no marker) is added
to the durable store; on success the trace extends by the configuration
write and then the marker write, in that order. -/
theorem repo_write_commit_ordering (fail : String → Bool) (r : Repo)
    (s : AioState) :
    (fail CONFIG_YML_FILE = true →
      Repo.write fail r s = (Except.error errWriteFailed, s)) ∧
    ((Repo.write fail r s).1 = Except.ok () →
      (Repo.write fail r s).2.writes =
        s.writes ++ [(CONFIG_YML_FILE, FileData.yamlData r.toVal),
          (VERSION_FILE,
            FileData.textData (Nat.repr REPO_VERSION_CURRENT))]) := by
  constructor
  · intro hf
    simp [repo_write_eq, hf]
  · intro hok
    cases hc : fail CONFIG_YML_FILE with
    | true => rw [repo_write_eq] at hok; simp [hc] at hok
    | false =>
      cases hv : fail VERSION_FILE with
      | true => rw [repo_write_eq] at hok; simp [hc, hv] at hok
      | false => simp [repo_write_eq, hc, hv]

/-- C1 witness: with every write failing the configuration write error is
returned and the store stays empty; with no faults the two writes land in
order. -/
theorem repo_write_commit_ordering_witness :
    Repo.write (fun _ => true) sampleRepo ⟨[]⟩ =
      (Except.error errWriteFailed, ⟨[]⟩) ∧
    (Repo.write (fun _ => false) sampleRepo ⟨[]⟩).2.writes =
      [] ++ [(CONFIG_YML_FILE, FileData.yamlData sampleRepo.toVal),
        (VERSION_FILE, FileData.textData (Nat.repr REPO_VERSION_CURRENT))] :=
  ⟨(repo_write_commit_ordering (fun _ => true) sampleRepo ⟨[]⟩).1 rfl,
    (repo_write_commit_ordering (fun _ => false) sampleRepo ⟨[]⟩).2 rfl⟩

/-- A descriptor carrying format version 0 (`REPO_VERSION_LOWEST`, inside the
supported range). -/
def repoV0 : Repo :=
  ⟨0, Chunking.bup 17, Encryption.none, Compression.deflate, ⟨2⟩,
    Hashing.sha256⟩

/-- C6 counterexample: for the descriptor with `version = 0` — inside the
supported range `[REPO_VERSION_LOWEST, REPO_VERSION_CURRENT]` — `Repo::write`
writes the marker with content `"1"` (`REPO_VERSION_CURRENT`), not the
decimal rendering `"0"` of the descriptor's own `version` field, refuting the
claim that the marker persists the descriptor's format version whatever its
value. -/
theorem repo_write_marker_version_cex :
    (Repo.write (fun _ => false) repoV0 ⟨[]⟩).2.writes.getLast? =
      some (VERSION_FILE, FileData.textData (Nat.repr 1)) ∧
    Nat.repr repoV0.version ≠ Nat.repr 1 ∧
    REPO_VERSION_LOWEST ≤ repoV0.version ∧
    repoV0.version ≤ REPO_VERSION_CURRENT :=
  ⟨rfl, by decide, by decide, by decide⟩

/-- C6 amended: the marker file produced by `Repo::write` always has textual
content equal to the decimal rendering of the constant
`REPO_VERSION_CURRENT` — `write_version_file(aio, REPO_VERSION_CURRENT)` —
which coincides with the descriptor's `version` field only when that field
equals `REPO_VERSION_CURRENT`. -/
theorem repo_write_marker_current_version (fail : String → Bool) (r : Repo)
    (s : AioState) (h : (Repo.write fail r s).1 = Except.ok ()) :
    (Repo.write fail r s).2.writes.getLast? =
      some (VERSION_FILE, FileData.textData (Nat.repr REPO_VERSION_CURRENT)) := by
  cases hc : fail CONFIG_YML_FILE with
  | true => rw [repo_write_eq] at h; simp [hc] at h
  | false =>
    cases hv : fail VERSION_FILE with
    | true => rw [repo_write_eq] at h; simp [hc, hv] at h
    | false =>
      rw [repo_write_eq]
      simp only [hc, hv, Bool.false_eq_true, if_false]
      exact getLast_append_pair _ _ _

/-- C6 witness: the amended statement evaluated on a fault-free run. -/
theorem repo_write_marker_current_version_witness :
    (Repo.write (fun _ => false) sampleRepo ⟨[]⟩).2.writes.getLast? =
      some (VERSION_FILE, FileData.textData (Nat.repr REPO_VERSION_CURRENT)) :=
  repo_write_marker_current_version (fun _ => false) sampleRepo ⟨[]⟩ rfl

/-- The empty passphrase. -/
def emptyPass : String := ""

/-- Settings carrying an out-of-range chunking (`chunk_bits = 9`) and an
oversized nesting depth. -/
def settingsSample : SettingsRepo :=
  ⟨Chunking.bup 9, SettingsEncryption.none, Compression.deflate, ⟨40⟩,
    Hashing.sha256⟩

/-- C4 counterexample: `Repo::new_from_settings` happily returns a descriptor
for settings whose chunking spec is invalid (`chunk_bits = 9`, outside
`[10, 30]`) — no validity check is performed, refuting the claim that a
descriptor is returned only if all spec validity checks pass. -/
theorem new_from_settings_accepts_invalid_cex :
    Repo.new_from_settings emptyPass settingsSample =
      Except.ok ⟨REPO_VERSION_CURRENT, Chunking.bup 9, Encryption.none,
        Compression.deflate, ⟨40⟩, Hashing.sha256⟩ ∧
    (Chunking.bup 9).valid = false :=
  ⟨rfl, by decide⟩

/-- C4 amended: `Repo::new_from_settings` performs no validity checking at
all — for any settings (with the `none` encryption choice) it returns the
descriptor whose spec fields are the settings' values copied verbatim, with
`version = REPO_VERSION_CURRENT`; only encryption key-material creation can
fail. -/
theorem new_from_settings_no_validation (pass : String) (s : SettingsRepo)
    (h : s.encryption = SettingsEncryption.none) :
    Repo.new_from_settings pass s =
      Except.ok ⟨REPO_VERSION_CURRENT, s.chunking, Encryption.none,
        s.compression, s.nesting, s.hashing⟩ := by
  unfold Repo.new_from_settings
  rw [h]

/-- C4 witness: the amended statement evaluated at the invalid settings. -/
theorem new_from_settings_no_validation_witness :
    settingsSample.encryption = SettingsEncryption.none ∧
    Repo.new_from_settings emptyPass settingsSample =
      Except.ok ⟨REPO_VERSION_CURRENT, settingsSample.chunking,
        Encryption.none, settingsSample.compression, settingsSample.nesting,
        settingsSample.hashing⟩ :=
  ⟨rfl, new_from_settings_no_validation emptyPass settingsSample rfl⟩

/-- C8: deserializing a descriptor defaults an absent `nesting` to depth 2,
an absent `compression` to deflate, an absent `hashing` to sha256, and an
absent `chunking` to bup with `chunk_bits` 17; an absent `encryption` field
makes deserialization fail (it has no default). -/
theorem repo_fromFields_defaults (f : RepoFields) :
    (∀ r : Repo, Repo.fromFields f = Except.ok r →
      (f.nesting = Option.none → r.nesting = ⟨2⟩) ∧
      (f.compression = Option.none → r.compression = Compression.deflate) ∧
      (f.hashing = Option.none → r.hashing = Hashing.sha256) ∧
      (f.chunking = Option.none → r.chunking = Chunking.bup 17)) ∧
    (f.encryption = Option.none →
      ∀ r : Repo, Repo.fromFields f ≠ Except.ok r) := by
  obtain ⟨fv, fc, fe, fco, fn, fh⟩ := f
  constructor
  · intro r hr
    cases fv with
    | none => simp [Repo.fromFields] at hr
    | some v =>
      cases fe with
      | none => simp [Repo.fromFields] at hr
      | some e =>
        simp [Repo.fromFields] at hr
        subst hr
        refine ⟨?_, ?_, ?_, ?_⟩ <;> (intro hnone; subst hnone; rfl)
  · intro he r hr
    simp only at he
    subst he
    cases fv with
    | none => simp [Repo.fromFields] at hr
    | some v => simp [Repo.fromFields] at hr

/-- Field view with every defaultable field absent and `version`/`encryption`
present. -/
def fieldsSample : RepoFields :=
  ⟨some 1, Option.none, some Encryption.none, Option.none, Option.none,
    Option.none⟩

/-- Field view with the `encryption` field absent. -/
def fieldsNoEnc : RepoFields :=
  ⟨some 1, Option.none, Option.none, Option.none, Option.none, Option.none⟩

/-- The descriptor obtained from `fieldsSample`: every defaultable field at
its serde default. -/
def repoDefaulted : Repo :=
  ⟨1, Chunking.bup 17, Encryption.none, Compression.deflate, ⟨2⟩,
    Hashing.sha256⟩

/-- C8 witness: the defaults evaluated on a field view with all optional
fields absent, and failure with `encryption` absent. -/
theorem repo_fromFields_defaults_witness :
    (repoDefaulted.nesting = ⟨2⟩ ∧
     repoDefaulted.compression = Compression.deflate ∧
     repoDefaulted.hashing = Hashing.sha256 ∧
     repoDefaulted.chunking = Chunking.bup 17) ∧
    Repo.fromFields fieldsNoEnc ≠ Except.ok repoDefaulted := by
  constructor
  · obtain ⟨h1, h2, h3, h4⟩ :=
      (repo_fromFields_defaults fieldsSample).1 repoDefaulted (by rfl)
    exact ⟨h1 rfl, h2 rfl, h3 rfl, h4 rfl⟩
  · exact (repo_fromFields_defaults fieldsNoEnc).2 rfl repoDefaulted

/-- C9: serializing any repository descriptor — over every variant of every
spec type — and deserializing it back yields a descriptor equal in all
fields to the original. -/
theorem repo_serde_roundtrip (r : Repo) : parseRepo r.toVal = Except.ok r := by
  obtain ⟨v, ch, en, co, ne, ha⟩ := r
  obtain ⟨nv⟩ := ne
  cases ch <;> cases en <;> cases co <;> cases ha <;> rfl

end RdedupConfig
